import Mathlib

/-!
Verification development for the MechanicalPropertiesDatabase repository
(`src/mechanical_properties.py`).

The source program is a thin CRUD layer over a SQLite database.  We embed it
shallowly: the SQLite store (tables `materials`, `material_categories`,
`mechanical_properties`, the derived views `properties` and
`category_summaries`) becomes an explicit record of lists, SQL statements
become list operations whose semantics follow SQLite's documented behaviour
(type affinity, storage-class comparison order, `avg` over non-NULL values,
`IFNULL`, UNIQUE / FOREIGN KEY constraint checks with
`PRAGMA foreign_keys=ON`, `ON UPDATE CASCADE` / `ON DELETE CASCADE`), and
Python exceptions (`sqlite3.IntegrityError`, `sqlite3.OperationalError`,
`ValueError`) become an explicit error type returned through `Except`.

SQLite cell values are modelled by `Value` (NULL, a number, or a text), with
numbers carried as rationals: every numeric value the program can store comes
from Python `float()` on a decimal numeral and is handled exactly by `ℚ` at
the granularity the claims need.
-/

namespace MPDB

/-- A SQLite storage cell: NULL, a numeric value (INTEGER/REAL storage,
modelled as `ℚ`), an IEEE infinity (REAL storage holds doubles, so `float('inf')`
bound through the driver is stored as a REAL infinity), or a TEXT value.
SQLite has no NaN: a NaN bind is stored as NULL, so no constructor is
needed for it. -/
inductive Value : Type where
  | null : Value
  | num : ℚ → Value
  | inf : Value
  | neginf : Value
  | text : String → Value
deriving DecidableEq, Repr

/-! ### Python `float()` / SQLite numeric-text parsing

`parseFloat?` models Python's `float(value)` on ASCII strings: surrounding
whitespace is stripped, the accepted language is
`[sign] (digitpart [. digitpart] | . digitpart) [exponent]` with single
underscores allowed between digits (`digitpart ::= digit ([_] digit)*`),
plus the case-insensitive spellings `inf`, `infinity` and `nan`.  The result
is an IEEE-style classification: exact decimal values are carried as `ℚ`
(binary64 rounding within the representable range is an idealization shared
by the whole REAL model), while literals beyond the double range overflow to
an infinity and literals below the subnormal range underflow to zero, as
`float()` does.  CPython's transliteration of non-ASCII unicode digits and
spaces is outside the model's ASCII scope.

`sqliteNum?` models SQLite's separate "text looks like a number" test used
when numeric affinity is applied to a text operand: whitespace is trimmed
and plain `[sign] digits [. digits] [exponent]` numerals convert, but digit
underscores and `inf`/`nan` spellings do not (verified against SQLite:
`' 300 '` converts, `'1_0'` and `'inf'` stay text). -/

/-- Value of a list of decimal digit characters. -/
def digitsVal (ds : List Char) : Nat :=
  ds.foldl (fun a c => 10 * a + (c.toNat - 48)) 0

/-- Parse an optional leading sign; returns (isNegative, rest). -/
def parseSign : List Char → (Bool × List Char)
  | '+' :: cs => (false, cs)
  | '-' :: cs => (true, cs)
  | cs => (false, cs)

/-- ASCII whitespace stripped by `float()` and by SQLite's text-to-number
conversion: space and the control characters 9–13. -/
def isAsciiWs (c : Char) : Bool :=
  c = ' ' || (9 ≤ c.toNat && c.toNat ≤ 13)

/-- Strip whitespace from both ends. -/
def stripWs (cs : List Char) : List Char :=
  ((cs.dropWhile isAsciiWs).reverse.dropWhile isAsciiWs).reverse

/-- Consume a Python `digitpart` — digits with single underscores strictly
between digits; returns the digits collected so far and the rest.  An
underscore is consumed only when a digit precedes (`acc` non-empty) and
follows it, so `_1`, `1_`, `1__2` all leave input unconsumed and fail at
the caller. -/
def digitPartAux (acc : List Char) : List Char → List Char × List Char
  | '_' :: d :: rest =>
    if !acc.isEmpty && d.isDigit then digitPartAux (acc ++ [d]) rest
    else (acc, '_' :: d :: rest)
  | '_' :: [] => (acc, ['_'])
  | c :: rest =>
    if c.isDigit then digitPartAux (acc ++ [c]) rest else (acc, c :: rest)
  | [] => (acc, [])

/-- Consume a digit run: Python `digitpart` when underscores are allowed,
a plain digit run (SQLite numerals) otherwise. -/
def takeDigits (underscores : Bool) (cs : List Char) : List Char × List Char :=
  if underscores then digitPartAux [] cs
  else (cs.takeWhile Char.isDigit, cs.dropWhile Char.isDigit)

/-- Parse `digitpart [. digitpart] | . digitpart`; returns the value as a
numerator/denominator pair of naturals and the rest. -/
def parseNumber (underscores : Bool) (cs : List Char) :
    Option (Nat × Nat × List Char) :=
  let ipr := takeDigits underscores cs
  match ipr.2 with
  | '.' :: rest2 =>
    let fpr := takeDigits underscores rest2
    if ipr.1.isEmpty && fpr.1.isEmpty then none
    else some (digitsVal ipr.1 * 10 ^ fpr.1.length + digitsVal fpr.1,
      10 ^ fpr.1.length, fpr.2)
  | _ => if ipr.1.isEmpty then none else some (digitsVal ipr.1, 1, ipr.2)

/-- Parse the (possibly absent) exponent part `e[sign]digitpart`, which must
consume the whole remainder; returns the signed decimal exponent. -/
def parseExpPart (underscores : Bool) : List Char → Option Int
  | [] => some 0
  | e :: cs =>
    if e = 'e' || e = 'E' then
      let sr := parseSign cs
      let dr := takeDigits underscores sr.2
      if dr.1.isEmpty || !dr.2.isEmpty then none
      else some (if sr.1 then -(digitsVal dr.1 : Int) else (digitsVal dr.1 : Int))
    else none

/-- Parse a finite numeral (after sign removal) to its exact rational value
`sign * mantissa * 10 ^ exponent`. -/
def parseFinite? (underscores : Bool) (neg : Bool) (cs : List Char) : Option ℚ :=
  match parseNumber underscores cs with
  | none => none
  | some (mn, md, rest) =>
    match parseExpPart underscores rest with
    | none => none
    | some ex =>
      let n : Nat := if 0 ≤ ex then mn * 10 ^ ex.toNat else mn
      let d : Nat := if 0 ≤ ex then md else md * 10 ^ (-ex).toNat
      some (if neg then mkRat (-(n : Int)) d else mkRat (n : Int) d)

/-- The result of a successful Python `float()`: a finite value, an
infinity, or NaN. -/
inductive PyFloat : Type where
  | finite : ℚ → PyFloat
  | posInf : PyFloat
  | negInf : PyFloat
  | nan : PyFloat
deriving DecidableEq, Repr

/-- The smallest positive value binary64 rounds away from zero: exact values
of magnitude at most `2 ^ (-1075)` round to 0.0 (ties-to-even at the
boundary).  The denominator is the decimal literal of `2 ^ 1075` (spelled
out because kernel evaluation of `Nat.pow` recurses linearly). -/
def floatTiny : ℚ :=
  mkRat 1
    404804506614621236704990693437834614099113299528284236713802716054860679135990693783920767402874248990374155728633623822779617474771586953734026799881477019843034848553132722728933815484186432682479535356945490137124014966849385397236206711298319112681620113024717539104666829230461005064372655017292012526615415482186989568

/-- Negative counterpart of `floatTiny`. -/
def floatTinyNeg : ℚ :=
  mkRat (-1)
    404804506614621236704990693437834614099113299528284236713802716054860679135990693783920767402874248990374155728633623822779617474771586953734026799881477019843034848553132722728933815484186432682479535356945490137124014966849385397236206711298319112681620113024717539104666829230461005064372655017292012526615415482186989568

/-- The overflow threshold of binary64: exact values of magnitude at least
`2 ^ 1024 - 2 ^ 970` round to an infinity (ties-to-even at the boundary).
The numerator is the decimal literal of `(2 ^ 54 - 1) * 2 ^ 970`. -/
def floatHuge : ℚ :=
  mkRat 179769313486231580793728971405303415079934132710037826936173778980444968292764750946649017977587207096330286416692887910946555547851940402630657488671505820681908902000708383676273854845817711531764475730270069855571366959622842914819860834936475292719074168444365510704342711559699508093042880177904174497792 1

/-- Negative counterpart of `floatHuge`. -/
def floatHugeNeg : ℚ :=
  mkRat (-179769313486231580793728971405303415079934132710037826936173778980444968292764750946649017977587207096330286416692887910946555547851940402630657488671505820681908902000708383676273854845817711531764475730270069855571366959622842914819860834936475292719074168444365510704342711559699508093042880177904174497792 : Int) 1

/-- Classify an exact decimal value as the double `float()` produces:
overflow to an infinity, underflow to zero, otherwise the value itself
(in-range rounding idealized to the exact rational). -/
def pyFloatOfRat (q : ℚ) : PyFloat :=
  if floatHuge ≤ q then PyFloat.posInf
  else if q ≤ floatHugeNeg then PyFloat.negInf
  else if q ≤ floatTiny && floatTinyNeg ≤ q then PyFloat.finite 0
  else PyFloat.finite q

/-- Model of Python `float(s)`: `some f` when `s` parses (whitespace
stripped; numeral with digit underscores, or `inf`/`infinity`/`nan` in any
case, each with an optional sign), `none` when `float` raises
`ValueError`. -/
def parseFloat? (s : String) : Option PyFloat :=
  let sr := parseSign (stripWs s.toList)
  let lower := sr.2.map Char.toLower
  if lower == "inf".toList || lower == "infinity".toList then
    some (if sr.1 then PyFloat.negInf else PyFloat.posInf)
  else if lower == "nan".toList then some PyFloat.nan
  else (parseFinite? true sr.1 sr.2).map pyFloatOfRat

/-- Model of SQLite's text-to-numeric conversion (numeric affinity applied
to a text operand): whitespace trimmed, plain numerals only. -/
def sqliteNum? (s : String) : Option ℚ :=
  let sr := parseSign (stripWs s.toList)
  parseFinite? false sr.1 sr.2

/-- SQLite's numeric interpretation of a non-NULL value (used by `avg`):
numbers stand for themselves, text that does not convert counts as 0.
NULL cells are filtered out before coercion and infinite cells are
intercepted by the aggregate's saturation, so those arms are never
consulted. -/
def toNumCoerce : Value → ℚ
  | Value.num q => q
  | Value.text s => (sqliteNum? s).getD 0
  | _ => 0

/-- The cell SQLite stores when the driver binds the result of `float()`:
finite doubles as numbers, infinities as REAL infinities, and NaN as NULL
(SQLite has no NaN; verified: binding `float('nan')` stores NULL). -/
def valueOfPyFloat : PyFloat → Value
  | PyFloat.finite q => Value.num q
  | PyFloat.posInf => Value.inf
  | PyFloat.negInf => Value.neginf
  | PyFloat.nan => Value.null

/-! ### The six mechanical-property columns -/

/-- One row of the `mechanical_properties` table minus its `material` key:
the six property columns, in schema order. -/
structure MechProps where
  density : Value
  modulus_of_elasticity : Value
  modulus_of_rigidity : Value
  yield_strength : Value
  ultimate_tensile_strength : Value
  percent_elongation : Value
deriving DecidableEq, Repr

/-- Names of the numeric property columns of `mechanical_properties`. -/
inductive PropCol : Type where
  | density
  | modulus_of_elasticity
  | modulus_of_rigidity
  | yield_strength
  | ultimate_tensile_strength
  | percent_elongation
deriving DecidableEq, Repr

/-- Column-name dispatch onto a property column, as the dynamic
`SET {column} = ?` text resolves against the schema. -/
def PropCol.fromString? : String → Option PropCol
  | "density" => some .density
  | "modulus_of_elasticity" => some .modulus_of_elasticity
  | "modulus_of_rigidity" => some .modulus_of_rigidity
  | "yield_strength" => some .yield_strength
  | "ultimate_tensile_strength" => some .ultimate_tensile_strength
  | "percent_elongation" => some .percent_elongation
  | _ => none

/-- Read one property column. -/
def getProp (c : PropCol) (p : MechProps) : Value :=
  match c with
  | .density => p.density
  | .modulus_of_elasticity => p.modulus_of_elasticity
  | .modulus_of_rigidity => p.modulus_of_rigidity
  | .yield_strength => p.yield_strength
  | .ultimate_tensile_strength => p.ultimate_tensile_strength
  | .percent_elongation => p.percent_elongation

/-- Write one property column (the `UPDATE mechanical_properties SET {column} = ?`). -/
def setProp (c : PropCol) (v : Value) (p : MechProps) : MechProps :=
  match c with
  | .density => { p with density := v }
  | .modulus_of_elasticity => { p with modulus_of_elasticity := v }
  | .modulus_of_rigidity => { p with modulus_of_rigidity := v }
  | .yield_strength => { p with yield_strength := v }
  | .ultimate_tensile_strength => { p with ultimate_tensile_strength := v }
  | .percent_elongation => { p with percent_elongation := v }

/-! ### Filter (class `Filter`) -/

/-- A database filter: `Filter.__init__` stores the column, value and
operator.  The CLI always supplies the value as a string, and the rendered
clause interpolates it as a quoted literal, so `value` is a `String`. -/
structure Filter where
  column : String
  value : String
  operator : String
deriving DecidableEq, Repr

/-- Model of `Filter.OPERATORS = ['<', '=', '>', '>=', '<=']`. -/
def Filter.OPERATORS : List String := ["<", "=", ">", ">=", "<="]

/-- The message of `Filter.InvalidOperator(operator)`:
`f'Invalid Operator ({operator}): Must be [{", ".join(Filter.OPERATORS)}]'`. -/
def invalidOperatorMessage (op : String) : String :=
  "Invalid Operator (" ++ op ++ "): Must be [" ++
    String.intercalate ", " Filter.OPERATORS ++ "]"

/-- Model of `Filter.__init__(column, value, operator)`: raises
`Filter.InvalidOperator` when the operator is not one of the five recognized
operators, otherwise stores the three attributes. -/
def mkFilter (column value op : String) : Except String Filter :=
  if op ∈ Filter.OPERATORS then Except.ok ⟨column, value, op⟩
  else Except.error (invalidOperatorMessage op)

/-- Model of `Filter.__str__`: the clause fragment `{column} {operator} "{value}"`. -/
def filterClause (f : Filter) : String :=
  f.column ++ " " ++ f.operator ++ " \"" ++ f.value ++ "\""

/-! ### The store -/

/-- One row of the `materials` table. -/
structure MaterialRow where
  material : String
  category : String
deriving DecidableEq, Repr

/-- One row of the `mechanical_properties` table. -/
structure PropsRow where
  material : String
  props : MechProps
deriving DecidableEq, Repr

/-- One row of the derived `properties` view
(`material, category, density, ..., percent_elongation`); the six property
columns are grouped in `props` in schema order. -/
structure Row where
  material : String
  category : String
  props : MechProps
deriving DecidableEq, Repr

/-- The state of a `MaterialsDatabase`: the three base tables (the
`material_categories` table is carried as its `category` column in
`material_category_id` order) plus the in-memory session filter list. -/
structure DB where
  categories : List String
  materials : List MaterialRow
  mech : List PropsRow
  filters : List Filter
deriving DecidableEq, Repr

/-- Model of `MaterialsDatabase.DEFUALT_MATERIAL_CATEGORIES` (source spelling). -/
def DEFUALT_MATERIAL_CATEGORIES : List String :=
  ["Metal", "Polymer", "Ceramic", "Composite", "Other"]

/-- Model of `MaterialsDatabase.create_database` followed by opening it
(`__init__` starts with `self.__filters = []`): empty base tables with the
default categories seeded in display order. -/
def create_database : DB :=
  { categories := DEFUALT_MATERIAL_CATEGORIES
    materials := []
    mech := []
    filters := [] }

/-- The Python exceptions the program's statements can raise. -/
inductive DBError : Type where
  | integrityError
  | operationalError
  | valueError
deriving DecidableEq, Repr

/-- Names of the `materials` rows. -/
def materialNames (db : DB) : List String := db.materials.map MaterialRow.material

/-- Names of the `mechanical_properties` rows. -/
def mechNames (db : DB) : List String := db.mech.map PropsRow.material

/-- The schema's constraints together with the add-path invariant: material
names are unique (PRIMARY KEY), property rows are unique per material
(PRIMARY KEY) and reference an existing material (FOREIGN KEY), every
material's category is seeded (FOREIGN KEY), and every material added through
`add_entry` carries a `mechanical_properties` row. -/
def WellFormed (db : DB) : Prop :=
  (materialNames db).Nodup ∧
  (mechNames db).Nodup ∧
  (∀ p ∈ db.mech, p.material ∈ materialNames db) ∧
  (∀ m ∈ db.materials, m.category ∈ db.categories) ∧
  (∀ m ∈ db.materials, m.material ∈ mechNames db)

instance (db : DB) : Decidable (WellFormed db) := by
  unfold WellFormed; infer_instance

/-! ### add_entry -/

/-- What `add_entry` reports: success, or the caught `sqlite3.IntegrityError`
turned into a printed message (a non-fatal report; no exception escapes). -/
inductive AddResult : Type where
  | ok
  | printed : String → AddResult
deriving DecidableEq, Repr

/-- Model of `MaterialsDatabase.add_entry(name, category, properties)`:
`__add_material` runs `INSERT INTO materials(material, category)`, which
raises `sqlite3.IntegrityError` when the UNIQUE constraint on `material`
fails (the name already exists) or the FOREIGN KEY on `category` fails; the
`except` branch prints a message and performs no insert, otherwise
`__add_mechanical_properties` inserts the properties row and the
transaction commits. -/
def add_entry (db : DB) (name category : String) (props : MechProps) :
    DB × AddResult :=
  if db.materials.any (fun m => m.material == name) || !(db.categories.contains category) then
    (db, AddResult.printed
      "A material with that name already exists, please update that material instead...")
  else
    ({ db with
        materials := db.materials ++ [⟨name, category⟩]
        mech := db.mech ++ [⟨name, props⟩] },
      AddResult.ok)

/-! ### The `properties` view and point lookup -/

/-- The `properties`-view row contributed by one `materials` row:
`materials INNER JOIN material_categories USING(category)` keeps the row only
when its category is seeded, and
`INNER JOIN mechanical_properties USING(material)` requires a property row
(unique by PRIMARY KEY, so `find?` picks it). -/
def viewRowOf (db : DB) (m : MaterialRow) : Option Row :=
  if m.category ∈ db.categories then
    (db.mech.find? (fun p => p.material == m.material)).map
      (fun p => { material := m.material, category := m.category, props := p.props })
  else none

/-- The derived `properties` view. -/
def propertiesView (db : DB) : List Row :=
  db.materials.filterMap (viewRowOf db)

/-- Model of `MaterialsDatabase.get_entry_by_material(material)`:
`SELECT * FROM properties WHERE material = ?` with `fetchone()` — the first
matching view row, or `none`. -/
def get_entry_by_material (db : DB) (material : String) : Option Row :=
  (propertiesView db).find? (fun r => r.material == material)

/-! ### update_entry -/

/-- Model of `__update_material` with `column = 'material'`:
`UPDATE materials SET material = ? WHERE material = ?`.  With
`PRAGMA foreign_keys=ON`, the UNIQUE/PRIMARY KEY constraint raises
`sqlite3.IntegrityError` when a row is actually updated to a name another row
already carries; on success the `ON UPDATE CASCADE` on
`mechanical_properties(material)` renames the dependent property row too. -/
def renameMaterial (db : DB) (name v : String) : Except DBError DB :=
  if db.materials.any (fun m => m.material == name) && v != name &&
      db.materials.any (fun m => m.material == v) then
    Except.error DBError.integrityError
  else
    Except.ok
      { db with
          materials := db.materials.map
            (fun m => if m.material == name then { m with material := v } else m)
          mech := db.mech.map
            (fun p => if p.material == name then { p with material := v } else p) }

/-- Model of `__update_material` with `column = 'category'`:
`UPDATE materials SET category = ? WHERE material = ?`.  The FOREIGN KEY to
`material_categories(category)` raises `sqlite3.IntegrityError` when a row is
updated to an unseeded category. -/
def updateCategory (db : DB) (name v : String) : Except DBError DB :=
  if db.materials.any (fun m => m.material == name) && !(db.categories.contains v) then
    Except.error DBError.integrityError
  else
    Except.ok
      { db with
          materials := db.materials.map
            (fun m => if m.material == name then { m with category := v } else m) }

/-- Model of `__update_mechanical_properties`:
`UPDATE mechanical_properties SET {column} = ? WHERE material = ?`. -/
def updateMechProp (db : DB) (name : String) (c : PropCol) (v : Value) : DB :=
  { db with
      mech := db.mech.map
        (fun p => if p.material == name then { p with props := setProp c v p.props } else p) }

/-- Model of `MaterialsDatabase.update_entry(name, column, value)`: dispatches on the
column name; for `material`/`category` it updates the `materials` table, for
a property column it first converts a non-empty value with `float(value)`
(raising `ValueError` on a string `float` rejects, before any statement
runs) while an empty value is passed through unconverted — SQLite's INTEGER
affinity cannot coerce `''`, so it is stored as the TEXT empty string; a
converted float is stored as SQLite stores the bound double (finite values
as numbers, infinities as REAL infinities, NaN as NULL).  A column name
outside the schema makes the spliced `UPDATE` text fail with
`sqlite3.OperationalError`.  On success it commits and returns
`get_entry_by_material` of the (possibly renamed) name. -/
def update_entry (db : DB) (name column value : String) :
    Except DBError (DB × Option Row) :=
  if column == "material" then
    match renameMaterial db name value with
    | Except.error e => Except.error e
    | Except.ok db' => Except.ok (db', get_entry_by_material db' value)
  else if column == "category" then
    match updateCategory db name value with
    | Except.error e => Except.error e
    | Except.ok db' => Except.ok (db', get_entry_by_material db' name)
  else
    match PropCol.fromString? column with
    | none =>
      if value == "" then Except.error DBError.operationalError
      else
        match parseFloat? value with
        | none => Except.error DBError.valueError
        | some _ => Except.error DBError.operationalError
    | some c =>
      if value == "" then
        let db' := updateMechProp db name c (Value.text "")
        Except.ok (db', get_entry_by_material db' name)
      else
        match parseFloat? value with
        | none => Except.error DBError.valueError
        | some f =>
          let db' := updateMechProp db name c (valueOfPyFloat f)
          Except.ok (db', get_entry_by_material db' name)

/-! ### delete_material -/

/-- Model of `MaterialsDatabase.delete_material(name)`:
`DELETE FROM materials WHERE material = ?`; the `ON DELETE CASCADE` on
`mechanical_properties(material)` removes the property row; returns
`rowcount == 1`.  (The statement has already run on the long-lived
connection either way, so the model applies the deletion and returns the
rowcount test; with a unique name the non-deleting case removes nothing.) -/
def delete_material (db : DB) (name : String) : DB × Bool :=
  let removed := (db.materials.filter (fun m => m.material == name)).length
  ({ db with
      materials := db.materials.filter (fun m => !(m.material == name))
      mech := db.mech.filter (fun p => !(p.material == name)) },
    removed == 1)

/-! ### The session filter list -/

/-- Model of `MaterialsDatabase.add_filter(column, value, operator)`: constructs a
`Filter` (validating the operator) and appends it. -/
def add_filter (db : DB) (column value op : String) : Except String DB :=
  match mkFilter column value op with
  | Except.error e => Except.error e
  | Except.ok f => Except.ok { db with filters := db.filters ++ [f] }

/-- Model of `MaterialsDatabase.remove_filter(filter)`: Python `list.remove` — removes
the first occurrence equal to the argument, and raises `ValueError` when the
argument is not in the list.  (Python compares with `==`, which for `Filter`
objects is identity; the CLI only passes objects taken from the list itself,
for which structural first-occurrence removal coincides.) -/
def remove_filter (db : DB) (f : Filter) : Except DBError DB :=
  if f ∈ db.filters then Except.ok { db with filters := db.filters.erase f }
  else Except.error DBError.valueError

/-- Model of `MaterialsDatabase.clear_filters()`. -/
def clear_filters (db : DB) : DB := { db with filters := [] }

/-! ### Filter clause semantics

A rendered filter fragment is `{column} {operator} "{value}"`.  SQLite
resolves the double-quoted token as a string literal (no view column is ever
named by a CLI-supplied value), applies numeric affinity to the literal when
the column has INTEGER affinity and the text looks like a number, and
compares by storage class: NULL comparisons are not true, numeric values sort
before TEXT, numbers compare numerically and text compares by binary
collation. -/

/-- The columns of the `properties` view, in order
(`PRAGMA_TABLE_INFO('properties')`). -/
def viewColumns : List String :=
  ["material", "category", "density", "modulus_of_elasticity",
   "modulus_of_rigidity", "yield_strength", "ultimate_tensile_strength",
   "percent_elongation"]

/-- The value a `properties`-view row holds in a named column. -/
def rowValue (r : Row) : String → Value
  | "material" => Value.text r.material
  | "category" => Value.text r.category
  | c =>
    match PropCol.fromString? c with
    | some pc => getProp pc r.props
    | none => Value.null

/-- Whether a view column has INTEGER (numeric) affinity. -/
def numericAffinity (c : String) : Bool :=
  (PropCol.fromString? c).isSome

/-- The value of the quoted literal after affinity conversion against the
column it is compared to (SQLite's own looks-like-a-number test, not
Python's). -/
def litValue (c v : String) : Value :=
  if numericAffinity c then
    match sqliteNum? v with
    | some q => Value.num q
    | none => Value.text v
  else Value.text v

/-- Lexicographic (binary-collation) strict order on character lists. -/
def charListLt : List Char → List Char → Bool
  | [], [] => false
  | [], _ :: _ => true
  | _ :: _, [] => false
  | a :: as, b :: bs =>
    if a.toNat < b.toNat then true
    else if b.toNat < a.toNat then false
    else charListLt as bs

/-- SQLite BINARY collation order on text. -/
def strLt (a b : String) : Bool := charListLt a.toList b.toList

/-- Three-way order on numeric cells (finite numbers and the REAL
infinities): `-Inf` below every finite value, `+Inf` above.  Only numeric
operands reach this; the final catch-all is never consulted. -/
def numCompare : Value → Value → Ordering
  | Value.neginf, Value.neginf => Ordering.eq
  | Value.neginf, _ => Ordering.lt
  | _, Value.neginf => Ordering.gt
  | Value.inf, Value.inf => Ordering.eq
  | Value.inf, _ => Ordering.gt
  | _, Value.inf => Ordering.lt
  | Value.num a, Value.num b =>
    if a < b then Ordering.lt else if a = b then Ordering.eq else Ordering.gt
  | _, _ => Ordering.eq

/-- Three-way SQLite comparison; `none` when either operand is NULL;
numeric storage classes sort before TEXT. -/
def sqliteCompare : Value → Value → Option Ordering
  | Value.null, _ => none
  | _, Value.null => none
  | Value.text a, Value.text b =>
    some (if strLt a b then Ordering.lt else if a = b then Ordering.eq else Ordering.gt)
  | Value.text _, _ => some Ordering.gt
  | _, Value.text _ => some Ordering.lt
  | a, b => some (numCompare a b)

/-- Truth of one rendered filter fragment on one view row. -/
def satisfies (f : Filter) (r : Row) : Bool :=
  match sqliteCompare (rowValue r f.column) (litValue f.column f.value) with
  | none => false
  | some ord =>
    match f.operator with
    | "<" => ord == Ordering.lt
    | "=" => ord == Ordering.eq
    | ">" => ord == Ordering.gt
    | ">=" => ord != Ordering.lt
    | "<=" => ord != Ordering.gt
    | _ => false

/-- Model of `MaterialsDatabase.get_filtered_entries()`:
`SELECT * FROM properties WHERE {' AND '.join(filters)}`.  With no filters
the WHERE clause is empty and the statement is malformed —
`sqlite3.OperationalError`; a filter naming a column outside the view (or an
operator outside the recognized set, impossible through `Filter`) also fails
the statement; otherwise the rows satisfying the conjunction are returned. -/
def get_filtered_entries (db : DB) : Except DBError (List Row) :=
  if db.filters.isEmpty then Except.error DBError.operationalError
  else if db.filters.all
      (fun f => f.column ∈ viewColumns && f.operator ∈ Filter.OPERATORS) then
    Except.ok ((propertiesView db).filter (fun r => db.filters.all (fun f => satisfies f r)))
  else Except.error DBError.operationalError

/-! ### get_all_entries and the CLI fallback -/

/-- SQLite `ORDER BY` order on cell values: NULL first, then numeric values
(with the REAL infinities at the ends), then text by binary collation. -/
def valueLe (a b : Value) : Bool :=
  match a, b with
  | Value.null, _ => true
  | _, Value.null => false
  | Value.text x, Value.text y => strLt x y || x == y
  | Value.text _, _ => false
  | _, Value.text _ => true
  | x, y => numCompare x y != Ordering.gt

/-- Insert into a sorted list (stable insertion sort step). -/
def insertRow (le : Row → Row → Bool) (r : Row) : List Row → List Row
  | [] => [r]
  | x :: xs => if le r x then r :: x :: xs else x :: insertRow le r xs

/-- Stable insertion sort. -/
def sortRows (le : Row → Row → Bool) : List Row → List Row
  | [] => []
  | x :: xs => insertRow le x (sortRows le xs)

/-- Model of `MaterialsDatabase.get_all_entries(order_by, descending)`:
`SELECT * FROM properties ORDER BY {order_by} ASC|DESC`; an `order_by`
outside the view columns makes the spliced statement fail. -/
def get_all_entries (db : DB) (orderBy : String) (descending : Bool) :
    Except DBError (List Row) :=
  if orderBy ∈ viewColumns then
    Except.ok (sortRows
      (fun a b =>
        if descending then valueLe (rowValue b orderBy) (rowValue a orderBy)
        else valueLe (rowValue a orderBy) (rowValue b orderBy))
      (propertiesView db))
  else Except.error DBError.operationalError

/-- Model of `MaterialsDatabaseEditor.display_filtered_materials` (CLI layer): the
rows it displays — `get_filtered_entries()` when filters are present,
otherwise the `display_all_materials` fallback,
`get_all_entries(order_by='material', descending=False)`. -/
def display_filtered_materials_rows (db : DB) : Except DBError (List Row) :=
  if !db.filters.isEmpty then get_filtered_entries db
  else get_all_entries db "material" false

/-! ### The `category_summaries` view -/

/-- One row of the `category_summaries` view. -/
structure SummaryRow where
  category : String
  materials : Nat
  density : Value
  modulus_of_elasticity : Value
  modulus_of_rigidity : Value
  yield_strength : Value
  ultimate_tensile_strength : Value
  percent_elongation : Value
deriving DecidableEq, Repr

/-- Read a `category_summaries` property column. -/
def getSummaryProp (c : PropCol) (s : SummaryRow) : Value :=
  match c with
  | .density => s.density
  | .modulus_of_elasticity => s.modulus_of_elasticity
  | .modulus_of_rigidity => s.modulus_of_rigidity
  | .yield_strength => s.yield_strength
  | .ultimate_tensile_strength => s.ultimate_tensile_strength
  | .percent_elongation => s.percent_elongation

/-- SQLite `avg(col)`: NULL when every value is NULL, otherwise the sum of
the numeric interpretations of the non-NULL values divided by their count.
The double sum saturates: any `+Inf` cell makes the average `+Inf` (likewise
`-Inf`), and mixing both gives NaN, which SQLite reports as NULL (verified:
`avg` over `{1e999, 5}` is `Inf`, over `{1e999, -1e999}` is NULL). -/
def sqliteAvg (vs : List Value) : Value :=
  let nn := vs.filter (fun v => !(v == Value.null))
  if nn.isEmpty then Value.null
  else if nn.any (fun v => v == Value.inf) then
    if nn.any (fun v => v == Value.neginf) then Value.null else Value.inf
  else if nn.any (fun v => v == Value.neginf) then Value.neginf
  else Value.num ((nn.map toNumCoerce).sum / (nn.length : ℚ))

/-- Model of `IFNULL(avg(col), "")`. -/
def avgColumn (vs : List Value) : Value :=
  match sqliteAvg vs with
  | Value.null => Value.text ""
  | v => v

/-- The `category_summaries` row of one category: the
`material_categories LEFT JOIN properties USING(category)` group —
`count(material)` counts the joined view rows (0 when the left join finds
none), each property column is `IFNULL(avg(...), "")`. -/
def summaryRowFor (db : DB) (c : String) : SummaryRow :=
  let rows := (propertiesView db).filter (fun r => r.category == c)
  { category := c
    materials := rows.length
    density := avgColumn (rows.map (fun r => r.props.density))
    modulus_of_elasticity := avgColumn (rows.map (fun r => r.props.modulus_of_elasticity))
    modulus_of_rigidity := avgColumn (rows.map (fun r => r.props.modulus_of_rigidity))
    yield_strength := avgColumn (rows.map (fun r => r.props.yield_strength))
    ultimate_tensile_strength := avgColumn (rows.map (fun r => r.props.ultimate_tensile_strength))
    percent_elongation := avgColumn (rows.map (fun r => r.props.percent_elongation)) }

/-- Model of `MaterialsDatabase.get_category_summaries()`:
`SELECT * FROM category_summaries` — one row per seeded category, grouped by
category and ordered by `material_category_id` (the seeding order). -/
def get_category_summaries (db : DB) : List SummaryRow :=
  db.categories.map (summaryRowFor db)

/-! ### Property-shape predicates used by the aggregate claims -/

/-- A stored cell that is either NULL or a finite number — the data model's
shape for property values ("six numeric measurements, any subset absent").
Text cells arise only from the empty-input sentinel and infinite cells only
from non-finite float input, both outside that shape. -/
def isNumOrNull : Value → Bool
  | Value.null => true
  | Value.num _ => true
  | _ => false

/-- The numeric content of a cell, `none` for NULL or text. -/
def valNum? : Value → Option ℚ
  | Value.num q => some q
  | _ => none

instance {P : PropCol → Prop} [DecidablePred P] : Decidable (∀ c : PropCol, P c) :=
  decidable_of_iff
    (P PropCol.density ∧ P PropCol.modulus_of_elasticity ∧ P PropCol.modulus_of_rigidity ∧
      P PropCol.yield_strength ∧ P PropCol.ultimate_tensile_strength ∧
      P PropCol.percent_elongation)
    (by
      constructor
      · rintro ⟨h1, h2, h3, h4, h5, h6⟩ c; cases c <;> assumption
      · intro h; exact ⟨h _, h _, h _, h _, h _, h _⟩)

/-- Every property cell of the store is NULL or numeric — the data model's
declared shape for the six measurements. -/
def NumericOrNull (db : DB) : Prop :=
  ∀ p ∈ db.mech, ∀ c : PropCol, isNumOrNull (getProp c p.props) = true

instance (db : DB) : Decidable (NumericOrNull db) := by
  unfold NumericOrNull; infer_instance

/-! ### Sample stores used by witnesses and counterexamples -/

/-- The six properties of the spec's Steel-1020 example. -/
def steelProps : MechProps :=
  ⟨Value.num 7870, Value.num 200, Value.num 80, Value.num 350, Value.num 420, Value.num 15⟩

/-- Representative properties for an aluminum alloy (low yield strength). -/
def aluminumProps : MechProps :=
  ⟨Value.num 2710, Value.num 69, Value.num 26, Value.num 34, Value.num 90, Value.num 40⟩

/-- Representative properties for a polymer. -/
def pvcProps : MechProps :=
  ⟨Value.num 1400, Value.num 3, Value.num 1, Value.num 45, Value.num 52, Value.num 50⟩

/-- A fresh store holding only Steel-1020. -/
def steelDB : DB := (add_entry create_database "Steel-1020" "Metal" steelProps).1

/-- A store with two metals and one polymer. -/
def sampleDB : DB :=
  (add_entry
    (add_entry
      (add_entry create_database "Steel-1020" "Metal" steelProps).1
      "Aluminum-1100" "Metal" aluminumProps).1
    "PVC" "Polymer" pvcProps).1

/-- The filter `category = "Metal"`. -/
def metalFilter : Filter := ⟨"category", "Metal", "="⟩

/-- The filter `yield_strength >= "300"`. -/
def yieldFilter : Filter := ⟨"yield_strength", "300", ">="⟩

/-- The sample store with the two example filters active. -/
def filteredDB : DB := { sampleDB with filters := [metalFilter, yieldFilter] }

/-- The joined-view row of Steel-1020. -/
def steelRow : Row := ⟨"Steel-1020", "Metal", steelProps⟩

/-! ### Helper lemmas about the joined view -/

theorem viewRowOf_eq_some {db : DB} {m : MaterialRow} {r : Row} :
    viewRowOf db m = some r ↔
      m.category ∈ db.categories ∧
        ∃ p, db.mech.find? (fun q => q.material == m.material) = some p ∧
          r = ⟨m.material, m.category, p.props⟩ := by
  unfold viewRowOf
  split
  · next hcat =>
    simp only [Option.map_eq_some', hcat, true_and]
    constructor
    · rintro ⟨p, hp, rfl⟩; exact ⟨p, hp, rfl⟩
    · rintro ⟨p, hp, rfl⟩; exact ⟨p, hp, rfl⟩
  · next hcat => simp [hcat]

theorem mem_propertiesView {db : DB} {r : Row} :
    r ∈ propertiesView db ↔ ∃ m ∈ db.materials, viewRowOf db m = some r := by
  unfold propertiesView
  exact List.mem_filterMap

theorem propertiesView_material_mem {db : DB} {r : Row} (h : r ∈ propertiesView db) :
    r.material ∈ materialNames db := by
  rcases mem_propertiesView.1 h with ⟨m, hm, hv⟩
  rcases viewRowOf_eq_some.1 hv with ⟨-, p, -, rfl⟩
  exact List.mem_map.2 ⟨m, hm, rfl⟩

/-! ## C7 — round-trip of insert then point lookup -/

/-- C7: on a fresh store not containing the name,
`add_entry("Steel-1020", "Metal", [7870, 200, 80, 350, 420, 15])` followed by
`get_entry_by_material("Steel-1020")` returns a row whose category is
`"Metal"` and whose six numeric property values are exactly those inserted. -/
theorem add_get_roundtrip_steel :
    (add_entry create_database "Steel-1020" "Metal" steelProps).2 = AddResult.ok ∧
      get_entry_by_material steelDB "Steel-1020" = some steelRow := by
  constructor <;> rfl

/-! ## C1 — duplicate add_entry is a reported no-op -/

/-- C1: for every store and every name already present in the `materials`
table, `add_entry(name, category, properties)` leaves the store completely
unchanged (no `materials` row, no `mechanical_properties` row is inserted)
and reports the duplicate through a printed message rather than a raised
(fatal) error. -/
theorem add_entry_duplicate_noop (db : DB) (name category : String)
    (props : MechProps) (h : name ∈ materialNames db) :
    add_entry db name category props =
      (db, AddResult.printed
        "A material with that name already exists, please update that material instead...") := by
  rcases List.mem_map.1 h with ⟨m, hm, hname⟩
  have hany : db.materials.any (fun m => m.material == name) = true :=
    List.any_eq_true.2 ⟨m, hm, by simp [hname]⟩
  simp [add_entry, hany]

/-- C1 witness: adding "Steel-1020" to a store already containing it. -/
theorem add_entry_duplicate_noop_witness :
    "Steel-1020" ∈ materialNames steelDB ∧
      add_entry steelDB "Steel-1020" "Metal" steelProps =
        (steelDB, AddResult.printed
          "A material with that name already exists, please update that material instead...") :=
  ⟨by decide, add_entry_duplicate_noop steelDB "Steel-1020" "Metal" steelProps (by decide)⟩

/-! ## C2 — Filter operator validation -/

theorem invalidOperatorMessage_eq (op : String) :
    invalidOperatorMessage op =
      "Invalid Operator (" ++ op ++ "): Must be [<, =, >, >=, <=]" := by
  unfold invalidOperatorMessage
  have h1 : String.intercalate ", " Filter.OPERATORS = "<, =, >, >=, <=" := rfl
  rw [h1]
  simp only [String.append_assoc]
  rfl

/-- C2: `Filter` construction succeeds for exactly the five recognized
operator strings, storing the given column, value and operator; for any
other operator string it fails with the "invalid operator" error whose
message names the offending operator and the set of valid operators, and no
`Filter` is produced. -/
theorem filter_operator_validation (column value op : String) :
    mkFilter column value op =
      if op ∈ Filter.OPERATORS then
        Except.ok { column := column, value := value, operator := op }
      else
        Except.error ("Invalid Operator (" ++ op ++ "): Must be [<, =, >, >=, <=]") := by
  unfold mkFilter
  rw [invalidOperatorMessage_eq]

/-! ## C9 — remove_filter (corrected) -/

/-- C9 counterexample: removing a `Filter` that is not in the collection is
not a safe no-op — `list.remove` raises `ValueError`. -/
theorem remove_filter_absent_raises :
    remove_filter create_database metalFilter = Except.error DBError.valueError := by
  rfl

/-- C9 amended: `remove_filter` removes the first occurrence of the given
`Filter` (by equality) when it is present; when the `Filter` is absent it
raises `ValueError` instead of being a safe no-op. -/
theorem remove_filter_amended (db : DB) (f : Filter) :
    (f ∈ db.filters →
      ∃ l1 l2, f ∉ l1 ∧ db.filters = l1 ++ f :: l2 ∧
        remove_filter db f = Except.ok { db with filters := l1 ++ l2 }) ∧
    (f ∉ db.filters → remove_filter db f = Except.error DBError.valueError) := by
  constructor
  · intro h
    rcases List.exists_erase_eq h with ⟨l1, l2, hnot, heq, herase⟩
    exact ⟨l1, l2, hnot, heq, by simp [remove_filter, h, herase]⟩
  · intro h
    simp [remove_filter, h]

/-- C9 amended witness: removing the one active filter succeeds. -/
theorem remove_filter_amended_witness :
    ∃ l1 l2, metalFilter ∉ l1 ∧ filteredDB.filters = l1 ++ metalFilter :: l2 ∧
      remove_filter filteredDB metalFilter =
        Except.ok { filteredDB with filters := l1 ++ l2 } :=
  (remove_filter_amended filteredDB metalFilter).1 (by decide)

/-! ## C10 — no filters means a malformed query, fallback is CLI-side -/

/-- C10: with an empty filter set `get_filtered_entries` fails with a
database error (the joined WHERE clause is empty, so the query text is
malformed) rather than returning all rows or an empty list; the fallback to
listing all entries lives only in the CLI's `display_filtered_materials`. -/
theorem no_filters_query_error (db : DB) (h : db.filters = []) :
    get_filtered_entries db = Except.error DBError.operationalError ∧
      display_filtered_materials_rows db = get_all_entries db "material" false := by
  constructor
  · simp [get_filtered_entries, h]
  · simp [display_filtered_materials_rows, h]

/-- C10 witness: the populated sample store with no filters. -/
theorem no_filters_query_error_witness :
    get_filtered_entries sampleDB = Except.error DBError.operationalError ∧
      display_filtered_materials_rows sampleDB =
        get_all_entries sampleDB "material" false :=
  no_filters_query_error sampleDB rfl

/-! ## C5 — delete_material cascades and reports -/

theorem filter_name_length {l : List MaterialRow} {name : String}
    (hnd : (l.map MaterialRow.material).Nodup) :
    (l.filter (fun m => m.material == name)).length =
      if name ∈ l.map MaterialRow.material then 1 else 0 := by
  induction l with
  | nil => simp
  | cons m ms ih =>
    rw [List.map_cons, List.nodup_cons] at hnd
    obtain ⟨hnotin, hnd'⟩ := hnd
    by_cases hm : m.material = name
    · subst hm
      have hnil : ms.filter (fun x => x.material == m.material) = [] :=
        List.filter_eq_nil_iff.2 (fun x hx hbeq => by
          have hx' : x.material = m.material := by simpa using hbeq
          exact hnotin (hx' ▸ List.mem_map.2 ⟨x, hx, rfl⟩))
      simp [List.filter_cons, hnil]
    · have hbe : (m.material == name) = false := by simp [hm]
      have hmem : (name ∈ m.material :: ms.map MaterialRow.material) ↔
          name ∈ ms.map MaterialRow.material := by
        rw [List.mem_cons]
        constructor
        · rintro (h | h)
          · exact absurd h.symm hm
          · exact h
        · exact Or.inr
      rw [List.map_cons]
      rw [List.filter_cons, hbe]
      simp only [Bool.false_eq_true, if_false, ih hnd']
      by_cases h : name ∈ ms.map MaterialRow.material
      · rw [if_pos h, if_pos (hmem.2 h)]
      · rw [if_neg h, if_neg (fun hc => h (hmem.1 hc))]

/-- C5: `delete_material(name)` removes the `materials` row and, by cascade,
the `mechanical_properties` row, returns `true` exactly when a row was
actually removed, and afterwards `get_entry_by_material(name)` is absent. -/
theorem delete_material_spec (db : DB) (name : String) (hwf : WellFormed db) :
    ((delete_material db name).2 = true ↔ name ∈ materialNames db) ∧
      (∀ m ∈ (delete_material db name).1.materials, m.material ≠ name) ∧
      (∀ p ∈ (delete_material db name).1.mech, p.material ≠ name) ∧
      get_entry_by_material (delete_material db name).1 name = none := by
  obtain ⟨hnd, -⟩ := hwf
  have hnd' : (db.materials.map MaterialRow.material).Nodup := hnd
  refine ⟨?_, ?_, ?_, ?_⟩
  · show ((db.materials.filter (fun m => m.material == name)).length == 1) = true ↔ _
    rw [filter_name_length hnd']
    by_cases h : name ∈ db.materials.map MaterialRow.material
    · rw [if_pos h]
      simpa [materialNames] using h
    · rw [if_neg h]
      simp [materialNames, h]
  · intro m hm
    have h2 : (!(m.material == name)) = true := (List.mem_filter.1 hm).2
    simpa using h2
  · intro p hp
    have h2 : (!(p.material == name)) = true := (List.mem_filter.1 hp).2
    simpa using h2
  · apply List.find?_eq_none.2
    intro r hr
    have hmem := propertiesView_material_mem hr
    rcases List.mem_map.1 hmem with ⟨m, hm, heq⟩
    have h2 : (!(m.material == name)) = true := (List.mem_filter.1 hm).2
    simp only [Bool.not_eq_eq_eq_not, Bool.not_true, beq_eq_false_iff_ne, ne_eq] at h2
    simp [← heq, h2]

/-- C5 witness: deleting PVC from the sample store. -/
theorem delete_material_spec_witness :
    ((delete_material sampleDB "PVC").2 = true ↔ "PVC" ∈ materialNames sampleDB) ∧
      (∀ m ∈ (delete_material sampleDB "PVC").1.materials, m.material ≠ "PVC") ∧
      (∀ p ∈ (delete_material sampleDB "PVC").1.mech, p.material ≠ "PVC") ∧
      get_entry_by_material (delete_material sampleDB "PVC").1 "PVC" = none :=
  delete_material_spec sampleDB "PVC" (by decide)

/-! ## C3 — numeric update (corrected: empty input is stored as `''`, not NULL) -/

theorem getProp_setProp (c : PropCol) (v : Value) (p : MechProps) :
    getProp c (setProp c v p) = v := by
  cases c <;> rfl

theorem fromString?_not_material {column : String} {pc : PropCol}
    (h : PropCol.fromString? column = some pc) :
    (column == "material") = false ∧ (column == "category") = false := by
  constructor
  · by_cases hc : column = "material"
    · subst hc; simp [PropCol.fromString?] at h
    · simp [hc]
  · by_cases hc : column = "category"
    · subst hc; simp [PropCol.fromString?] at h
    · simp [hc]

/-- C3 counterexample: updating the density of Steel-1020 with the empty
string stores the TEXT empty string, not NULL — refuting "the stored value
is null, not the empty string". -/
theorem update_empty_value_stored_as_text :
    (update_entry steelDB "Steel-1020" "density" "").map
        (fun res => res.1.mech.map (fun p => p.props.density)) =
      Except.ok [Value.text ""] ∧ Value.text "" ≠ Value.null := by
  exact ⟨rfl, by simp⟩

/-- C3 amended: for a numeric property column, `update_entry` with the empty
string stores the empty string itself (the `if value:` guard skips `float`
conversion and INTEGER affinity cannot coerce `''`, so the cell holds TEXT
`''`, not NULL); with a value `float()` accepts it stores the bound double
as SQLite keeps it (finite values as that number, `inf`/`-inf` — spelled or
by overflow — as REAL infinities, `nan` as NULL); and with a non-empty value
`float()` rejects it fails with `ValueError` raised before any statement
runs, committing no partial state. -/
theorem update_numeric_column_amended (db : DB) (name column value : String)
    (pc : PropCol) (hc : PropCol.fromString? column = some pc) :
    (value = "" →
      update_entry db name column value =
        Except.ok (updateMechProp db name pc (Value.text ""),
          get_entry_by_material (updateMechProp db name pc (Value.text "")) name) ∧
      ∀ p ∈ (updateMechProp db name pc (Value.text "")).mech,
        p.material = name → getProp pc p.props = Value.text "") ∧
    (∀ f : PyFloat, parseFloat? value = some f →
      update_entry db name column value =
        Except.ok (updateMechProp db name pc (valueOfPyFloat f),
          get_entry_by_material (updateMechProp db name pc (valueOfPyFloat f)) name) ∧
      ∀ p ∈ (updateMechProp db name pc (valueOfPyFloat f)).mech,
        p.material = name → getProp pc p.props = valueOfPyFloat f) ∧
    (value ≠ "" → parseFloat? value = none →
      update_entry db name column value = Except.error DBError.valueError) := by
  obtain ⟨hm, hcat⟩ := fromString?_not_material hc
  have hupd : ∀ v : Value, ∀ p ∈ (updateMechProp db name pc v).mech,
      p.material = name → getProp pc p.props = v := by
    intro v p hp hpname
    simp only [updateMechProp] at hp
    rcases List.mem_map.1 hp with ⟨p0, hp0, rfl⟩
    by_cases h0 : (p0.material == name) = true
    · simp [h0, getProp_setProp]
    · rw [Bool.not_eq_true] at h0
      rw [h0] at hpname
      simp only [Bool.false_eq_true, if_false] at hpname
      have hne : p0.material ≠ name := by simpa using h0
      exact absurd hpname hne
  refine ⟨?_, ?_, ?_⟩
  · intro hv; subst hv
    exact ⟨by simp [update_entry, hm, hcat, hc], hupd _⟩
  · intro f hq
    have hv : (value == "") = false := by
      by_cases h : value = ""
      · subst h
        rw [show parseFloat? "" = none from rfl] at hq
        exact Option.noConfusion hq
      · simp [h]
    exact ⟨by simp [update_entry, hm, hcat, hc, hv, hq], hupd _⟩
  · intro hne hq
    have hv : (value == "") = false := by simp [hne]
    simp [update_entry, hm, hcat, hc, hv, hq]

set_option maxRecDepth 10000 in
/-- C3 amended witness: clearing Steel-1020's density with the empty string,
together with checks that the parse split matches Python `float()` on
whitespace-padded, underscored, non-finite and rejected inputs. -/
theorem update_numeric_column_amended_witness :
    (update_entry steelDB "Steel-1020" "density" "" =
      Except.ok (updateMechProp steelDB "Steel-1020" PropCol.density (Value.text ""),
        get_entry_by_material
          (updateMechProp steelDB "Steel-1020" PropCol.density (Value.text ""))
          "Steel-1020") ∧
    ∀ p ∈ (updateMechProp steelDB "Steel-1020" PropCol.density (Value.text "")).mech,
      p.material = "Steel-1020" →
        getProp PropCol.density p.props = Value.text "") ∧
    parseFloat? " 300" = some (PyFloat.finite 300) ∧
    parseFloat? "300 " = some (PyFloat.finite 300) ∧
    parseFloat? "1_000" = some (PyFloat.finite 1000) ∧
    parseFloat? "-2.5e2" = some (PyFloat.finite (-250)) ∧
    parseFloat? "inf" = some PyFloat.posInf ∧
    parseFloat? "-Infinity" = some PyFloat.negInf ∧
    parseFloat? "nan" = some PyFloat.nan ∧
    parseFloat? "1__0" = none ∧
    parseFloat? "1_" = none ∧
    parseFloat? "abc" = none ∧
    parseFloat? "" = none :=
  ⟨(update_numeric_column_amended steelDB "Steel-1020" "density" ""
      PropCol.density rfl).1 rfl,
    by decide, by decide, by decide, by decide, by decide, by decide,
    by decide, by decide, by decide, by decide, by decide⟩

/-! ## C8 — filtered listing is the AND of the filters -/

/-- C8: with a non-empty filter set (over view columns, with recognized
operators), `get_filtered_entries` returns exactly the joined-view rows
satisfying every current filter simultaneously — the logical AND of all
filter predicates. -/
theorem filtered_entries_conjunction (db : DB) (hne : db.filters ≠ [])
    (hval : ∀ f ∈ db.filters, f.column ∈ viewColumns ∧ f.operator ∈ Filter.OPERATORS) :
    ∃ rows, get_filtered_entries db = Except.ok rows ∧
      ∀ r : Row, r ∈ rows ↔
        (r ∈ propertiesView db ∧ ∀ f ∈ db.filters, satisfies f r = true) := by
  have h1 : db.filters.isEmpty = false := by
    cases h : db.filters.isEmpty
    · rfl
    · exact absurd (List.isEmpty_iff.1 h) hne
  have h2 : db.filters.all
      (fun f => decide (f.column ∈ viewColumns) && decide (f.operator ∈ Filter.OPERATORS)) =
        true :=
    List.all_eq_true.2 (fun f hf => by simp [(hval f hf).1, (hval f hf).2])
  refine ⟨(propertiesView db).filter (fun r => db.filters.all (fun f => satisfies f r)),
    ?_, ?_⟩
  · simp [get_filtered_entries, h1, h2]
  · intro r
    simp [List.mem_filter, List.all_eq_true]

/-- C8 witness: with filters `category = "Metal"` and
`yield_strength >= "300"` on the sample store, exactly Steel-1020 (the only
material satisfying both conditions) is returned. -/
theorem filtered_entries_conjunction_witness :
    get_filtered_entries filteredDB = Except.ok [steelRow] ∧
      (∃ rows, get_filtered_entries filteredDB = Except.ok rows ∧
        ∀ r : Row, r ∈ rows ↔
          (r ∈ propertiesView filteredDB ∧
            ∀ f ∈ filteredDB.filters, satisfies f r = true)) :=
  ⟨by rfl, filtered_entries_conjunction filteredDB (by decide) (by decide)⟩

/-! ## C4 — renaming moves the join key -/

theorem find?_eq_some_of_unique {α : Type} {p : α → Bool} {l : List α} {a : α}
    (ha : a ∈ l) (hpa : p a = true) (huniq : ∀ b ∈ l, p b = true → b = a) :
    l.find? p = some a := by
  induction l with
  | nil => cases ha
  | cons x xs ih =>
    by_cases hx : p x = true
    · rw [List.find?_cons_of_pos _ hx]
      exact congrArg some (huniq x (List.mem_cons_self x xs) hx)
    · rw [List.find?_cons_of_neg _ hx]
      have hax : a ∈ xs := by
        rcases List.mem_cons.1 ha with h | h
        · exact absurd (h ▸ hpa) hx
        · exact h
      exact ih hax (fun b hb hpb => huniq b (List.mem_cons_of_mem _ hb) hpb)

theorem find?_rename_mech (l : List PropsRow) (name newName : String) (p : PropsRow)
    (hfind : l.find? (fun q => q.material == name) = some p)
    (hfresh : ∀ q ∈ l, q.material ≠ newName) :
    (l.map (fun q =>
        if q.material == name then { q with material := newName } else q)).find?
          (fun q => q.material == newName) =
      some { p with material := newName } := by
  induction l with
  | nil => simp at hfind
  | cons x xs ih =>
    by_cases hx : (x.material == name) = true
    · simp only [List.find?, hx] at hfind
      injection hfind with h
      subst h
      simp [List.map_cons, hx, List.find?]
    · rw [Bool.not_eq_true] at hx
      simp only [List.find?, hx] at hfind
      have hxnew : (x.material == newName) = false := by
        simpa using hfresh x (List.mem_cons_self x xs)
      simp only [List.map_cons, hx, Bool.false_eq_true, if_false, List.find?, hxnew]
      exact ih hfind (fun q hq => hfresh q (List.mem_cons_of_mem _ hq))

/-- C4: for a material present in the store, renaming it via `update_entry`
on the `material` column changes the join key: afterwards the lookup by the
old name is absent and the lookup by the new name returns a row carrying
exactly the category and mechanical property values associated with the
material before the rename. -/
theorem rename_material_moves_lookup (db : DB) (name newName : String) (r : Row)
    (hwf : WellFormed db)
    (hr : get_entry_by_material db name = some r)
    (hfresh : newName ∉ materialNames db) :
    ∃ db', update_entry db name "material" newName =
        Except.ok (db', some { r with material := newName }) ∧
      get_entry_by_material db' name = none ∧
      get_entry_by_material db' newName = some { r with material := newName } := by
  obtain ⟨hndM, hndP, hsubM, hcatM, hhasP⟩ := hwf
  have hrname : r.material = name := by
    have := List.find?_some hr
    simpa using this
  have hrmem : r ∈ propertiesView db := List.mem_of_find?_eq_some hr
  rcases mem_propertiesView.1 hrmem with ⟨m, hm, hv⟩
  rcases viewRowOf_eq_some.1 hv with ⟨hmcat, p, hfindp, rfl⟩
  have hmname : m.material = name := hrname
  have hnameMem : name ∈ materialNames db := by
    rw [← hmname]
    exact List.mem_map.2 ⟨m, hm, rfl⟩
  have hnn : newName ≠ name := fun h => hfresh (by rw [h]; exact hnameMem)
  have hB : db.materials.any (fun x => x.material == newName) = false := by
    apply List.any_eq_false.2
    intro x hx hbe
    have hxe : x.material = newName := by simpa using hbe
    exact hfresh (List.mem_map.2 ⟨x, hx, hxe⟩)
  refine ⟨{ db with
      materials := db.materials.map (fun x =>
        if x.material == name then { x with material := newName } else x)
      mech := db.mech.map (fun q =>
        if q.material == name then { q with material := newName } else q) },
    ?_, ?_, ?_⟩
  all_goals
    set db' : DB := { db with
        materials := db.materials.map (fun x =>
          if x.material == name then { x with material := newName } else x)
        mech := db.mech.map (fun q =>
          if q.material == name then { q with material := newName } else q) }
      with hdb'
  -- the materials rows of the renamed store never carry the old name
  all_goals
    have hno : ∀ x' ∈ db'.materials, x'.material ≠ name := by
      intro x' hx'
      rw [hdb'] at hx'
      rcases List.mem_map.1 hx' with ⟨x, hx, rfl⟩
      by_cases hxn : (x.material == name) = true
      · simp only [hxn, if_true]
        simpa using hnn
      · rw [Bool.not_eq_true] at hxn
        simp only [hxn, Bool.false_eq_true, if_false]
        simpa using hxn
  all_goals
    have hnone : get_entry_by_material db' name = none := by
      apply List.find?_eq_none.2
      intro row hrow
      rcases mem_propertiesView.1 hrow with ⟨x', hx', hvv⟩
      rcases viewRowOf_eq_some.1 hvv with ⟨-, pp, -, rfl⟩
      simpa using hno x' hx'
  -- the renamed mechanical_properties row is found under the new name
  all_goals
    have hmechfresh : ∀ q ∈ db.mech, q.material ≠ newName := by
      intro q hq hqe
      exact hfresh (hqe ▸ hsubM q hq)
  all_goals
    have hfindp' : db.mech.find? (fun q => q.material == name) = some p := by
      rw [← hmname]
      exact hfindp
  all_goals
    have hfind' : db'.mech.find? (fun q => q.material == newName) =
        some { p with material := newName } := by
      rw [hdb']
      exact find?_rename_mech db.mech name newName p hfindp' hmechfresh
  -- the renamed materials row produces exactly the expected view row
  all_goals
    have hmbe : (m.material == name) = true := by simp [hmname]
  all_goals
    have hm' : ({ m with material := newName } : MaterialRow) ∈ db'.materials := by
      rw [hdb']
      refine List.mem_map.2 ⟨m, hm, ?_⟩
      simp only [hmbe, if_true]
  all_goals
    have hvnew : viewRowOf db' { m with material := newName } =
        some ⟨newName, m.category, p.props⟩ := by
      apply viewRowOf_eq_some.2
      refine ⟨hmcat, { p with material := newName }, ?_, rfl⟩
      exact hfind'
  all_goals
    have hsome : get_entry_by_material db' newName =
        some ⟨newName, m.category, p.props⟩ := by
      apply find?_eq_some_of_unique
        (List.mem_filterMap.2 ⟨{ m with material := newName }, hm', hvnew⟩)
        (by simp)
      intro row hrow hpred
      rcases mem_propertiesView.1 hrow with ⟨x', hx', hvv⟩
      have hrowname : row.material = newName := by simpa using hpred
      have hx'name : x'.material = newName := by
        rcases viewRowOf_eq_some.1 hvv with ⟨-, pp, -, rfl⟩
        exact hrowname
      rw [hdb'] at hx'
      rcases List.mem_map.1 hx' with ⟨x, hx, rfl⟩
      by_cases hxn : (x.material == name) = true
      · have hxname : x.material = name := by simpa using hxn
        have hxm : x = m := List.inj_on_of_nodup_map hndM hx hm
          (by rw [hxname, hmname])
        subst hxm
        rw [if_pos hxn] at hvv
        rw [hvnew] at hvv
        injection hvv with h
        exact h.symm
      · rw [Bool.not_eq_true] at hxn
        rw [hxn] at hx'name
        simp only [Bool.false_eq_true, if_false] at hx'name
        exact absurd (hx'name ▸ List.mem_map.2 ⟨x, hx, rfl⟩) hfresh
  -- assemble the three conclusions
  · show update_entry db name "material" newName = _
    have h1 : renameMaterial db name newName = Except.ok db' := by
      unfold renameMaterial
      rw [hB]
      simp [hdb']
    simp [update_entry, h1, hsome]
  · exact hnone
  · exact hsome

/-- C4 witness: renaming Steel-1020 to Steel-1045 in the sample store. -/
theorem rename_material_moves_lookup_witness :
    ∃ db', update_entry sampleDB "Steel-1020" "material" "Steel-1045" =
        Except.ok (db', some { steelRow with material := "Steel-1045" }) ∧
      get_entry_by_material db' "Steel-1020" = none ∧
      get_entry_by_material db' "Steel-1045" =
        some { steelRow with material := "Steel-1045" } :=
  rename_material_moves_lookup sampleDB "Steel-1020" "Steel-1045" steelRow
    (by decide) (by rfl) (by decide)

/-! ## C6 — category summaries -/

theorem getSummaryProp_summaryRowFor (db : DB) (c : String) (pc : PropCol) :
    getSummaryProp pc (summaryRowFor db c) =
      avgColumn (((propertiesView db).filter (fun r => r.category == c)).map
        (fun r => getProp pc r.props)) := by
  cases pc <;> rfl

theorem numOrNull_filter_map :
    ∀ (vs : List Value), (∀ v ∈ vs, isNumOrNull v = true) →
      (vs.filter (fun v => !(v == Value.null))).map toNumCoerce = vs.filterMap valNum? ∧
        (vs.filter (fun v => !(v == Value.null))).length = (vs.filterMap valNum?).length
  | [], _ => ⟨rfl, rfl⟩
  | v :: vt, h => by
    have hv := h v (List.mem_cons_self v vt)
    obtain ⟨ih1, ih2⟩ :=
      numOrNull_filter_map vt (fun w hw => h w (List.mem_cons_of_mem _ hw))
    cases v with
    | null => simpa [List.filter_cons, List.filterMap_cons, valNum?] using ⟨ih1, ih2⟩
    | num q =>
      simp [List.filter_cons, List.filterMap_cons, valNum?, toNumCoerce, ih1, ih2]
    | inf => simp [isNumOrNull] at hv
    | neginf => simp [isNumOrNull] at hv
    | text s => simp [isNumOrNull] at hv

theorem avgColumn_of_numOrNull (vs : List Value)
    (h : ∀ v ∈ vs, isNumOrNull v = true) :
    avgColumn vs =
      if (vs.filterMap valNum?).isEmpty then Value.text ""
      else Value.num ((vs.filterMap valNum?).sum / ((vs.filterMap valNum?).length : ℚ)) := by
  obtain ⟨h1, h2⟩ := numOrNull_filter_map vs h
  have hInf : ((vs.filter (fun v => !(v == Value.null))).any
      (fun v => v == Value.inf)) = false := by
    apply List.any_eq_false.2
    intro v hv hbe
    have hvs := h v (List.mem_filter.1 hv).1
    have hveq : v = Value.inf := by simpa using hbe
    rw [hveq] at hvs
    simp [isNumOrNull] at hvs
  have hNegInf : ((vs.filter (fun v => !(v == Value.null))).any
      (fun v => v == Value.neginf)) = false := by
    apply List.any_eq_false.2
    intro v hv hbe
    have hvs := h v (List.mem_filter.1 hv).1
    have hveq : v = Value.neginf := by simpa using hbe
    rw [hveq] at hvs
    simp [isNumOrNull] at hvs
  by_cases he : (vs.filter (fun v => !(v == Value.null))).isEmpty = true
  · have he2 : (vs.filterMap valNum?).isEmpty = true := by
      rw [List.isEmpty_iff_length_eq_zero] at he ⊢
      rw [← h2]
      exact he
    simp only [avgColumn, sqliteAvg, he, if_true, he2]
  · rw [Bool.not_eq_true] at he
    have he2 : (vs.filterMap valNum?).isEmpty = false := by
      cases h3 : (vs.filterMap valNum?).isEmpty
      · rfl
      · rw [List.isEmpty_iff_length_eq_zero] at h3
        rw [← h2] at h3
        rw [← List.isEmpty_iff_length_eq_zero] at h3
        rw [h3] at he
        cases he
    simp only [avgColumn, sqliteAvg, he, Bool.false_eq_true, if_false, hInf, hNegInf,
      he2, h1, h2]

theorem view_props_numOrNull {db : DB} (hnum : NumericOrNull db) :
    ∀ r ∈ propertiesView db, ∀ pc : PropCol, isNumOrNull (getProp pc r.props) = true := by
  intro r hr pc
  rcases mem_propertiesView.1 hr with ⟨m, hm, hv⟩
  rcases viewRowOf_eq_some.1 hv with ⟨-, p, hfind, rfl⟩
  exact hnum p (List.mem_of_find?_eq_some hfind) pc

theorem filter_filterMap_view (db : DB) (c : String) :
    ∀ (l : List MaterialRow), (∀ m ∈ l, (viewRowOf db m).isSome = true) →
      ((l.filterMap (viewRowOf db)).filter (fun r => r.category == c)).length =
        (l.filter (fun m => m.category == c)).length := by
  intro l
  induction l with
  | nil => intro _; rfl
  | cons m ms ih =>
    intro h
    have hm := h m (List.mem_cons_self m ms)
    rcases Option.isSome_iff_exists.1 hm with ⟨row, hrow⟩
    have hcat : row.category = m.category := by
      rcases viewRowOf_eq_some.1 hrow with ⟨-, p, -, rfl⟩
      rfl
    simp only [List.filterMap_cons, hrow, List.filter_cons, hcat]
    by_cases hc : (m.category == c) = true
    · simp only [hc, if_true, List.length_cons,
        ih (fun x hx => h x (List.mem_cons_of_mem _ hx))]
    · rw [Bool.not_eq_true] at hc
      simp only [hc, Bool.false_eq_true, if_false,
        ih (fun x hx => h x (List.mem_cons_of_mem _ hx))]

/-- C6: `get_category_summaries` returns one row per seeded category in the
stable display order; a category with zero materials reports count 0 and
empty-string (non-numeric) averages; a category with materials reports for
each numeric property the arithmetic mean of the non-NULL values of that
property across exactly the materials of that category (NULLs excluded from
the average, not counted as zero; a column whose values are all NULL reports
the empty string). -/
theorem category_summaries_spec (db : DB) (hwf : WellFormed db)
    (hnum : NumericOrNull db) :
    (get_category_summaries db).length = db.categories.length ∧
    ∀ (i : Nat) (c : String), db.categories[i]? = some c →
      ∃ srow, (get_category_summaries db)[i]? = some srow ∧
        srow.category = c ∧
        srow.materials = (db.materials.filter (fun m => m.category == c)).length ∧
        (db.materials.filter (fun m => m.category == c) = [] →
          ∀ pc : PropCol, getSummaryProp pc srow = Value.text "") ∧
        ∀ pc : PropCol,
          getSummaryProp pc srow =
            (if (((propertiesView db).filter (fun r => r.category == c)).filterMap
                  (fun r => valNum? (getProp pc r.props))).isEmpty then
              Value.text ""
            else
              Value.num
                ((((propertiesView db).filter (fun r => r.category == c)).filterMap
                    (fun r => valNum? (getProp pc r.props))).sum /
                  ((((propertiesView db).filter (fun r => r.category == c)).filterMap
                      (fun r => valNum? (getProp pc r.props))).length : ℚ))) := by
  obtain ⟨-, -, -, hcatM, hhasP⟩ := hwf
  have hall : ∀ m ∈ db.materials, (viewRowOf db m).isSome = true := by
    intro m hm
    unfold viewRowOf
    rw [if_pos (hcatM m hm)]
    rw [Option.isSome_map']
    rcases List.mem_map.1 (hhasP m hm) with ⟨p, hp, hpe⟩
    exact List.find?_isSome.2 ⟨p, hp, by simp [hpe]⟩
  have hcount : ∀ c : String,
      ((propertiesView db).filter (fun r => r.category == c)).length =
        (db.materials.filter (fun m => m.category == c)).length := by
    intro c
    exact filter_filterMap_view db c db.materials hall
  constructor
  · simp [get_category_summaries]
  · intro i c hc
    refine ⟨summaryRowFor db c, ?_, rfl, ?_, ?_, ?_⟩
    · rw [get_category_summaries, List.getElem?_map, hc]
      rfl
    · show ((propertiesView db).filter (fun r => r.category == c)).length = _
      exact hcount c
    · intro hz pc
      have hnil : (propertiesView db).filter (fun r => r.category == c) = [] := by
        rw [← List.length_eq_zero, hcount c, hz]
        rfl
      rw [getSummaryProp_summaryRowFor, hnil]
      rfl
    · intro pc
      rw [getSummaryProp_summaryRowFor]
      have hvals : ∀ v ∈ ((propertiesView db).filter (fun r => r.category == c)).map
          (fun r => getProp pc r.props), isNumOrNull v = true := by
        intro v hv
        rcases List.mem_map.1 hv with ⟨r, hrmem, rfl⟩
        exact view_props_numOrNull hnum r (List.mem_filter.1 hrmem).1 pc
      have h := avgColumn_of_numOrNull _ hvals
      rw [List.filterMap_map] at h
      exact h

/-- C6 witness: the sample store (two metals, one polymer, two empty
categories) is well-formed with numeric-or-null properties. -/
theorem category_summaries_spec_witness :
    (get_category_summaries sampleDB).length = sampleDB.categories.length ∧
    ∀ (i : Nat) (c : String), sampleDB.categories[i]? = some c →
      ∃ srow, (get_category_summaries sampleDB)[i]? = some srow ∧
        srow.category = c ∧
        srow.materials =
          (sampleDB.materials.filter (fun m => m.category == c)).length ∧
        (sampleDB.materials.filter (fun m => m.category == c) = [] →
          ∀ pc : PropCol, getSummaryProp pc srow = Value.text "") ∧
        ∀ pc : PropCol,
          getSummaryProp pc srow =
            (if (((propertiesView sampleDB).filter (fun r => r.category == c)).filterMap
                  (fun r => valNum? (getProp pc r.props))).isEmpty then
              Value.text ""
            else
              Value.num
                ((((propertiesView sampleDB).filter
                      (fun r => r.category == c)).filterMap
                    (fun r => valNum? (getProp pc r.props))).sum /
                  ((((propertiesView sampleDB).filter
                        (fun r => r.category == c)).filterMap
                      (fun r => valNum? (getProp pc r.props))).length : ℚ))) :=
  category_summaries_spec sampleDB (by decide) (by decide)

end MPDB
